import Mathlib

/-!
Shallow embedding of `send_emails.py` and
`src/extensions/jinja/jinja_environment_extended.py` from the repository
`tjobarow/pymsgraph_automate_emails`.

Modelling conventions:
  * A CSV row (`csv.DictReader` output) is an insertion-ordered string map,
    embedded as an association list `Row`; `lookupRow` is Python `row[key]`
    returning `none` where Python raises `KeyError`.
  * The external collaborators (`jinja_ext_env.template.render` and
    `simple_mail.send_mail`) are oracle fields of a context `Ctx`; a raised
    exception is `Except.error` carrying `str(err)`.
  * `sendEmailRun` is the body of `send_email`; its second component is the
    trace of render / transport-send calls the body performs, so that
    "no send occurred" and "the template was rendered" are statable.
    `send_email` applies the `@logger.catch()` wrapper, which absorbs any
    exception escaping the body and yields the default return value `None`.
  * `executor.map` over a thread pool returns results in input order
    (documented `Executor.map` semantics), independently of completion
    order; the batch is therefore embedded as `List.map` (`runBatch`).
  * Strings are Lean `String` except in the path-splitting function, where
    `List Char` is used so that `List.splitOn` lemmas apply.
-/

namespace SendEmails

/-- One CSV row: insertion-ordered field-name / field-value pairs. -/
abbrev Row := List (String × String)

/-- Python dictionary access `row[k]`: `none` models a raised `KeyError`. -/
def lookupRow : Row → String → Option String
  | [], _ => none
  | kv :: rest, k => if kv.1 = k then some kv.2 else lookupRow rest k

/-- JSON escaping of one character, as `json.dumps` does for the
quote and backslash (sufficient for the string data the script handles). -/
def jsonEscapeChar (c : Char) : List Char :=
  if c = '\\' then ['\\', '\\'] else if c = '"' then ['\\', '"'] else [c]

/-- JSON escaping of a string value. -/
def jsonEscape (s : String) : String :=
  String.mk (s.toList.flatMap jsonEscapeChar)

/-- A JSON string literal. -/
def jsonQuote (s : String) : String :=
  "\"" ++ jsonEscape s ++ "\""

/-- Embedding of `json.dumps(row)` for a dict of strings: the
insertion-ordered object literal. -/
def jsonDumps (row : Row) : String :=
  "\x7b" ++ String.intercalate ", "
    (row.map fun kv => jsonQuote kv.1 ++ ": " ++ jsonQuote kv.2) ++ "\x7d"

/-- The `failure_information` dictionary built in `send_email`
(lines 319-324 of `send_emails.py`), with its keys in insertion order
`mail`, `row`, `error`, `html_content`. -/
structure Failure where
  mail : String
  row : String
  error : String
  html_content : String
deriving DecidableEq, Repr

/-- An observable call performed by the body of `send_email`. -/
inductive Event where
  | renderCall (row : Row)
  | sendCall (subject : String) (recipient : String) (body : String)
deriving DecidableEq, Repr

/-- The external collaborators and fixed configuration of one run:
the `--subject` argument, `jinja_ext_env.template.render`, and
`simple_mail.send_mail` (whose fixed `body_type=HTML` and
`importance=High` arguments are constants and left implicit). -/
structure Ctx where
  subject : String
  render : Row → Except String String
  send : String → String → String → Except String Unit

/-- Body of `send_email` (inside the `@logger.catch()` wrapper), paired
with the trace of render / send calls it performs.  Control flow of the
source: `row['email_address']` is read first (line 296; `KeyError`
escapes the body), then the template is rendered (line 301; a render
exception escapes the body), then unless `is_dry_run` the transport send
is attempted inside `try/except`, a raised transport error being turned
into the `failure_information` dictionary (lines 306-325). -/
def sendEmailRun (ctx : Ctx) (row : Row) (is_dry_run : Bool) :
    Except String (Option Failure) × List Event :=
  match lookupRow row "email_address" with
  | none => (Except.error "KeyError: email_address", [])
  | some addr =>
    match ctx.render row with
    | Except.error e => (Except.error e, [Event.renderCall row])
    | Except.ok body =>
      if is_dry_run then
        (Except.ok none, [Event.renderCall row])
      else
        match ctx.send ctx.subject addr body with
        | Except.ok _ =>
          (Except.ok none,
           [Event.renderCall row, Event.sendCall ctx.subject addr body])
        | Except.error err =>
          (Except.ok (some { mail := addr, row := jsonDumps row,
                             error := err, html_content := body }),
           [Event.renderCall row, Event.sendCall ctx.subject addr body])

/-- The public `send_email` function: the `@logger.catch()` decorator
absorbs any exception raised by the body and makes the call return the
default value `None`. -/
def send_email (ctx : Ctx) (row : Row) (is_dry_run : Bool) : Option Failure :=
  match (sendEmailRun ctx row is_dry_run).1 with
  | Except.ok r => r
  | Except.error _ => none

/-- The batch (line 343): `executor.map(send_email, csv_data,
[args.dry_run] * len(csv_data))`, collected into the `results` list in
input order. -/
def runBatch (ctx : Ctx) (rows : List Row) (dry : Bool) : List (Option Failure) :=
  rows.map fun r => send_email ctx r dry

/-- The concatenated trace of collaborator calls over the whole batch. -/
def runEvents (ctx : Ctx) (rows : List Row) (dry : Bool) : List Event :=
  (rows.map fun r => (sendEmailRun ctx r dry).2).flatten

/-- Line 348: `failures = [result for result in results if result is not None]`. -/
def failuresOf (results : List (Option Failure)) : List Failure :=
  results.filterMap id

/-- Whether the optional `EMAILS_MUST_MATCH_REGEX` environment variable
is configured: `emails_must_match_regex is not None and
emails_must_match_regex != ""` (lines 250-251). -/
def patternConfigured : Option String → Bool
  | none => false
  | some s => !(s == "")

/-- The CSV loading loop (lines 248-260).  `m` is the `re.match` oracle
(pattern, candidate ↦ whether a match object is returned).  When the
regex is configured and the row's address fails it, the row is skipped;
the `row["email_address"]` access is only reached when the regex is
configured, and a `KeyError` there escapes to the enclosing
`try/except`, which aborts the whole load (lines 262-266). -/
def loadRows (p : Option String) (m : String → String → Bool) :
    List Row → Except String (List Row)
  | [] => Except.ok []
  | row :: rest =>
    if patternConfigured p then
      match lookupRow row "email_address" with
      | none => Except.error "KeyError: email_address"
      | some addr =>
        if m (p.getD "") addr then
          match loadRows p m rest with
          | Except.error e => Except.error e
          | Except.ok out => Except.ok (row :: out)
        else
          loadRows p m rest
    else
      match loadRows p m rest with
      | Except.error e => Except.error e
      | Except.ok out => Except.ok (row :: out)

/-- The whole run after configuration: load the CSV, and only on success
dispatch the batch; a loading exception aborts before any job is
scheduled. -/
def mainRun (p : Option String) (m : String → String → Bool) (ctx : Ctx)
    (rows : List Row) (dry : Bool) :
    Except String (List (Option Failure) × List Event) :=
  match loadRows p m rows with
  | Except.error e => Except.error e
  | Except.ok data => Except.ok (runBatch ctx data dry, runEvents ctx data dry)

/-- The failure-export file written at lines 350-359: header from
`failures[0].keys()` (every failure dictionary is built with the same
four keys in the same insertion order), one row per failure, filename
containing the run timestamp. -/
structure ExportFile where
  filename : String
  header : List String
  rows : List Failure
deriving DecidableEq, Repr

/-- Lines 350-362: when `len(failures) > 0` a timestamped CSV of the
failures is written, otherwise nothing is written. -/
def exportFailures (timestamp : String) (results : List (Option Failure)) :
    Option ExportFile :=
  let failures := failuresOf results
  if failures.length > 0 then
    some { filename := "./email_failures_" ++ timestamp ++ ".csv",
           header := ["mail", "row", "error", "html_content"],
           rows := failures }
  else
    none

/-- The predicate the loading loop keeps a row by, when the regex is
configured: the row's address field exists and matches the pattern
(a missing field aborts the load instead, so it never reaches `filter`). -/
def rowMatches (p : Option String) (m : String → String → Bool) (r : Row) : Bool :=
  match lookupRow r "email_address" with
  | some a => m (p.getD "") a
  | none => false

/-- Embedding of
`JinjaFileSystemEnvironmentExtended.split_template_path_and_filename`
over `List Char`: pick `'/'` as delimiter when present, else `'\\'`;
split on it; the filename is the popped last chunk; the directory is the
re-joined remainder with a trailing delimiter. -/
def split_template_path_and_filename (p : List Char) : List Char × List Char :=
  let path_delimiter : Char := if '/' ∈ p then '/' else '\\'
  let path_arr : List (List Char) := p.splitOn path_delimiter
  let template_filename : List Char := path_arr.getLastD []
  let template_dir_path : List Char :=
    [path_delimiter].intercalate path_arr.dropLast ++ [path_delimiter]
  (template_dir_path, template_filename)

/-! Concrete fixtures used to instantiate the theorems below. -/

/-- A context whose collaborators always succeed. -/
def ctxOk : Ctx :=
  { subject := "Hi", render := fun _ => Except.ok "BODY",
    send := fun _ _ _ => Except.ok () }

/-- A context whose transport send always raises. -/
def ctxSendFail : Ctx :=
  { subject := "Hi", render := fun _ => Except.ok "BODY",
    send := fun _ _ _ => Except.error "boom" }

/-- A context whose template render always raises. -/
def ctxRenderFail : Ctx :=
  { subject := "Hi", render := fun _ => Except.error "rboom",
    send := fun _ _ _ => Except.ok () }

/-- A row with an address at the fixture company domain. -/
def rowA : Row := [("email_address", "a@co.com"), ("first_name", "Al")]

/-- A row whose address is outside the fixture company domain. -/
def rowB : Row := [("email_address", "bo@x.org"), ("first_name", "Bo")]

/-- A row without the mandated `email_address` field. -/
def rowNoAddr : Row := [("first_name", "Bo")]

/-- A match oracle accepting everything. -/
def mTrue : String → String → Bool := fun _ _ => true

/-- A match oracle accepting exactly the fixture company address. -/
def mCo : String → String → Bool := fun _ s => s == "a@co.com"

/-- A concrete failure record. -/
def f0 : Failure := { mail := "a", row := "r", error := "e", html_content := "h" }

/-- C1: the batch result produced by running the worker pool (the list
built from `executor.map` over `send_email`) has one slot per loaded row
and slot `i` holds the outcome of the send attempt for row `i`,
regardless of the success/failure mix; positional alignment is
independent of worker completion order, which the embedding reflects
through the order-preserving semantics of `Executor.map`. -/
theorem batchResultAligned (ctx : Ctx) (rows : List Row) (dry : Bool) :
    (runBatch ctx rows dry).length = rows.length ∧
    ∀ i : Nat, (runBatch ctx rows dry)[i]?
        = (rows[i]?).map fun r => send_email ctx r dry := by
  refine ⟨by simp [runBatch], fun i => ?_⟩
  simp [runBatch]

/-- C2: when the transport send for a job raises, `send_email` returns
exactly one failure dictionary holding the job's address, the
JSON-serialized original row, the stringified error and the rendered
body; the exception does not escape the body (the result is an `ok`
value, not an error), and every other job's slot in the batch is exactly
what it would be in isolation. -/
theorem sendFailureProducesRecord (ctx : Ctx) (row : Row) (addr body err : String)
    (haddr : lookupRow row "email_address" = some addr)
    (hrender : ctx.render row = Except.ok body)
    (hsend : ctx.send ctx.subject addr body = Except.error err) :
    send_email ctx row false
      = some { mail := addr, row := jsonDumps row, error := err, html_content := body } ∧
    (sendEmailRun ctx row false).1
      = Except.ok (some { mail := addr, row := jsonDumps row,
                          error := err, html_content := body }) ∧
    ∀ pre post : List Row,
      runBatch ctx (pre ++ row :: post) false
        = runBatch ctx pre false
            ++ some { mail := addr, row := jsonDumps row,
                      error := err, html_content := body } :: runBatch ctx post false := by
  have hrun : (sendEmailRun ctx row false).1
      = Except.ok (some { mail := addr, row := jsonDumps row,
                          error := err, html_content := body }) := by
    simp [sendEmailRun, haddr, hrender, hsend]
  have hse : send_email ctx row false
      = some { mail := addr, row := jsonDumps row, error := err, html_content := body } := by
    simp [send_email, hrun]
  exact ⟨hse, hrun, fun pre post => by simp [runBatch, hse]⟩

/-- Witness for C2 at a concrete failing transport. -/
theorem sendFailureProducesRecord_witness :
    send_email ctxSendFail rowA false
      = some { mail := "a@co.com", row := jsonDumps rowA,
               error := "boom", html_content := "BODY" } :=
  (sendFailureProducesRecord ctxSendFail rowA "a@co.com" "BODY" "boom" rfl rfl rfl).1

/-- C7: an export file is produced exactly when the filtered failure
list is non-empty; it carries the run timestamp in its name, the four
failure-dictionary keys as header, and one row per failure record. -/
theorem failureExportSpec (ts : String) (results : List (Option Failure)) :
    (failuresOf results = [] → exportFailures ts results = none) ∧
    (failuresOf results ≠ [] →
      exportFailures ts results
        = some { filename := "./email_failures_" ++ ts ++ ".csv",
                 header := ["mail", "row", "error", "html_content"],
                 rows := failuresOf results }) := by
  constructor
  · intro h
    simp [exportFailures, h]
  · intro h
    simp [exportFailures, List.length_pos.mpr h]

/-- Witness for C7: no file without failures, a file with one. -/
theorem failureExportSpec_witness :
    exportFailures "T" [none, none] = none ∧
    exportFailures "T" [some f0, none]
      = some { filename := "./email_failures_" ++ "T" ++ ".csv",
               header := ["mail", "row", "error", "html_content"],
               rows := failuresOf [some f0, none] } :=
  ⟨(failureExportSpec "T" [none, none]).1 rfl,
   (failureExportSpec "T" [some f0, none]).2 (by decide)⟩

/-- C8: `send_email` is total at its public boundary: it always returns
`None` or a failure dictionary, and any exception escaping its body —
including a missing `email_address` key or a render error — is absorbed
by the `@logger.catch()` wrapper, which yields `None`. -/
theorem sendEmailTotal (ctx : Ctx) (row : Row) (dry : Bool) :
    (send_email ctx row dry = none ∨ ∃ f, send_email ctx row dry = some f) ∧
    (∀ e, (sendEmailRun ctx row dry).1 = Except.error e → send_email ctx row dry = none) ∧
    (lookupRow row "email_address" = none → send_email ctx row dry = none) ∧
    (∀ e, ctx.render row = Except.error e → send_email ctx row dry = none) := by
  refine ⟨?_, fun e he => ?_, fun h => ?_, fun e he => ?_⟩
  · cases h : send_email ctx row dry with
    | none => exact Or.inl rfl
    | some f => exact Or.inr ⟨f, rfl⟩
  · simp [send_email, he]
  · simp [send_email, sendEmailRun, h]
  · rcases hl : lookupRow row "email_address" with _ | addr
    · simp [send_email, sendEmailRun, hl]
    · simp [send_email, sendEmailRun, hl, he]

/-- Witness for C8: a missing address key and a render error both yield
`None` rather than an exception. -/
theorem sendEmailTotal_witness :
    send_email ctxOk rowNoAddr false = none ∧
    send_email ctxRenderFail rowA true = none :=
  ⟨(sendEmailTotal ctxOk rowNoAddr false).2.2.1 rfl,
   (sendEmailTotal ctxRenderFail rowA true).2.2.2 "rboom" rfl⟩

/-- C10: with `EMAILS_MUST_MATCH_REGEX` unset or empty, loading keeps
every row in source order and never inspects the address field, so a row
without an `email_address` key loads without error. -/
theorem loadNoFilterWhenUnconfigured (p : Option String) (m : String → String → Bool)
    (rows : List Row) (hc : patternConfigured p = false) :
    loadRows p m rows = Except.ok rows := by
  induction rows with
  | nil => rfl
  | cons row rest ih => simp [loadRows, hc, ih]

/-- Witness for C10: a row lacking the address field loads, both with
the variable unset and with it empty. -/
theorem loadNoFilterWhenUnconfigured_witness :
    loadRows none mTrue [rowNoAddr] = Except.ok [rowNoAddr] ∧
    loadRows (some "") mTrue [rowNoAddr] = Except.ok [rowNoAddr] :=
  ⟨loadNoFilterWhenUnconfigured none mTrue [rowNoAddr] rfl,
   loadNoFilterWhenUnconfigured (some "") mTrue [rowNoAddr] rfl⟩

/-- In dry-run mode every outcome is the no-failure sentinel: success,
a missing address key and a render error all yield `None`. -/
theorem send_email_dry_none (ctx : Ctx) (row : Row) : send_email ctx row true = none := by
  rcases hl : lookupRow row "email_address" with _ | addr
  · simp [send_email, sendEmailRun, hl]
  · rcases hr : ctx.render row with e | body
    · simp [send_email, sendEmailRun, hl, hr]
    · simp [send_email, sendEmailRun, hl, hr]

/-- In dry-run mode the body performs exactly one render call when the
address key is present, and no collaborator call at all otherwise. -/
theorem sendEmailRun_dry_events (ctx : Ctx) (row : Row) :
    (sendEmailRun ctx row true).2
      = if (lookupRow row "email_address").isSome then [Event.renderCall row] else [] := by
  rcases hl : lookupRow row "email_address" with _ | addr
  · simp [sendEmailRun, hl]
  · rcases hr : ctx.render row with e | body
    · simp [sendEmailRun, hl, hr]
    · simp [sendEmailRun, hl, hr]

/-- C3 counterexample: in a dry-run batch, a job whose row lacks the
`email_address` key is never rendered — the `KeyError` at the first
`row['email_address']` access precedes the render call — even though its
slot still holds the no-failure sentinel.  This refutes the clause that
every job's template is still rendered. -/
theorem dryRunPurity_cex :
    Event.renderCall rowNoAddr ∉ runEvents ctxOk [rowNoAddr] true ∧
    runBatch ctxOk [rowNoAddr] true = [none] := by
  constructor
  · decide
  · decide

/-- C3 (amended): in a dry-run batch no transport send call occurs for
any job and every slot of the batch result holds the no-failure
sentinel; the template is rendered for every job whose row contains the
`email_address` field (a row without it raises before the render call
and is absorbed). -/
theorem dryRunPurity (ctx : Ctx) (rows : List Row) :
    runBatch ctx rows true = List.replicate rows.length none ∧
    (∀ s a b, Event.sendCall s a b ∉ runEvents ctx rows true) ∧
    (∀ row ∈ rows, (lookupRow row "email_address").isSome = true →
        Event.renderCall row ∈ runEvents ctx rows true) := by
  refine ⟨?_, ?_, ?_⟩
  · induction rows with
    | nil => rfl
    | cons r rest ih =>
      simp [runBatch, send_email_dry_none, List.replicate_succ]
  · intro s a b hmem
    rw [runEvents] at hmem
    rcases List.mem_flatten.mp hmem with ⟨l, hl, hel⟩
    rcases List.mem_map.mp hl with ⟨r, _, rfl⟩
    rw [sendEmailRun_dry_events] at hel
    split at hel
    · simp at hel
    · simp at hel
  · intro row hrow hsome
    rw [runEvents]
    refine List.mem_flatten.mpr
      ⟨(sendEmailRun ctx row true).2, List.mem_map_of_mem _ hrow, ?_⟩
    simp [sendEmailRun_dry_events, hsome]

/-- Witness for C3 (amended) at a one-row dry-run batch. -/
theorem dryRunPurity_witness :
    runBatch ctxOk [rowA] true = List.replicate 1 none ∧
    Event.renderCall rowA ∈ runEvents ctxOk [rowA] true :=
  ⟨(dryRunPurity ctxOk [rowA]).1,
   (dryRunPurity ctxOk [rowA]).2.2 rowA (List.mem_singleton.mpr rfl) rfl⟩

/-- C4 counterexample: a template-render failure is absorbed by the
`@logger.catch()` wrapper and yields the no-failure sentinel, so the
aggregated failure list holds no entry for that job — refuting the
clause that a render error is captured as a Failure Record. -/
theorem renderFailureNotRecorded_cex :
    ctxRenderFail.render rowA = Except.error "rboom" ∧
    send_email ctxRenderFail rowA false = none ∧
    failuresOf (runBatch ctxRenderFail [rowA] false) = [] := by
  refine ⟨rfl, ?_, ?_⟩ <;> decide

/-- C4 (amended): per-job errors never propagate out of the worker and
the batch continues with the remaining jobs, the failing job occupying
exactly its own slot; a transport-send exception is captured as a
Failure Record there (and hence reaches the aggregated failure list),
while a template-render exception is absorbed into the no-failure
sentinel. -/
theorem perJobErrorIsolation (ctx : Ctx) (row : Row) (addr : String)
    (haddr : lookupRow row "email_address" = some addr) :
    (∀ e, ctx.render row = Except.error e → send_email ctx row false = none) ∧
    (∀ body err, ctx.render row = Except.ok body →
        ctx.send ctx.subject addr body = Except.error err →
        send_email ctx row false
          = some { mail := addr, row := jsonDumps row, error := err, html_content := body } ∧
        ∀ pre post : List Row,
          { mail := addr, row := jsonDumps row, error := err, html_content := body }
            ∈ failuresOf (runBatch ctx (pre ++ row :: post) false)) ∧
    (∀ pre post : List Row,
        runBatch ctx (pre ++ row :: post) false
          = runBatch ctx pre false ++ send_email ctx row false :: runBatch ctx post false) := by
  refine ⟨fun e he => ?_, fun body err hb hs => ?_, fun pre post => ?_⟩
  · simp [send_email, sendEmailRun, haddr, he]
  · have hse : send_email ctx row false
        = some { mail := addr, row := jsonDumps row, error := err, html_content := body } := by
      simp [send_email, sendEmailRun, haddr, hb, hs]
    refine ⟨hse, fun pre post => ?_⟩
    have hsplit : runBatch ctx (pre ++ row :: post) false
        = runBatch ctx pre false
            ++ some { mail := addr, row := jsonDumps row,
                      error := err, html_content := body } :: runBatch ctx post false := by
      simp [runBatch, hse]
    rw [hsplit]
    simp [failuresOf]
  · simp [runBatch]

/-- Witness for C4 (amended): render failure absorbed, send failure
recorded, at concrete contexts. -/
theorem perJobErrorIsolation_witness :
    send_email ctxRenderFail rowA false = none ∧
    send_email ctxSendFail rowA false
      = some { mail := "a@co.com", row := jsonDumps rowA,
               error := "boom", html_content := "BODY" } :=
  ⟨(perJobErrorIsolation ctxRenderFail rowA "a@co.com" rfl).1 "rboom" rfl,
   ((perJobErrorIsolation ctxSendFail rowA "a@co.com" rfl).2.1 "BODY" "boom" rfl rfl).1⟩

/-- C5: with the validation pattern configured, a successful load yields
exactly the source-ordered sublist of rows whose address matches the
pattern; in particular every non-matching row is absent from the
dispatch set (and was merely skipped, not an error, since the load
succeeded). -/
theorem loadFilterSpec (p : Option String) (m : String → String → Bool)
    (rows out : List Row)
    (hc : patternConfigured p = true)
    (hok : loadRows p m rows = Except.ok out) :
    out = rows.filter (rowMatches p m) ∧
    ∀ r ∈ rows, rowMatches p m r = false → r ∉ out := by
  have hfil : ∀ (rs outv : List Row), loadRows p m rs = Except.ok outv →
      outv = rs.filter (rowMatches p m) := by
    intro rs
    induction rs with
    | nil =>
      intro outv h
      simp only [loadRows, Except.ok.injEq] at h
      subst h
      rfl
    | cons row rest ih =>
      intro outv h
      simp only [loadRows, hc, if_true] at h
      rcases hl : lookupRow row "email_address" with _ | addr
      · simp only [hl] at h
        exact absurd h (by simp)
      · simp only [hl] at h
        by_cases hm : m (p.getD "") addr = true
        · rw [if_pos hm] at h
          rcases hrest : loadRows p m rest with e | outr
          · rw [hrest] at h
            exact absurd h (by simp)
          · rw [hrest] at h
            simp only [Except.ok.injEq] at h
            subst h
            simp [List.filter_cons, rowMatches, hl, hm, ih outr hrest]
        · rw [if_neg hm] at h
          simp [List.filter_cons, rowMatches, hl, hm, ih outv h]
  refine ⟨hfil rows out hok, fun r hr hrm hmem => ?_⟩
  rw [hfil rows out hok] at hmem
  have hmatch := (List.mem_filter.mp hmem).2
  rw [hrm] at hmatch
  exact absurd hmatch (by simp)

/-- Witness for C5: a two-row input with one non-matching address loads
to exactly the matching row. -/
theorem loadFilterSpec_witness :
    ([rowA] : List Row) = [rowA, rowB].filter (rowMatches (some "@co") mCo) :=
  (loadFilterSpec (some "@co") mCo [rowA, rowB] [rowA] rfl rfl).1

/-- C6 counterexample: with no validation pattern configured, an input
whose only row lacks the `email_address` field loads successfully and
its job is scheduled and dispatched (the run does not abort) — refuting
the claim that such inputs always make loading fail. -/
theorem missingFieldFatal_cex :
    loadRows none mTrue [rowNoAddr] = Except.ok [rowNoAddr] ∧
    mainRun none mTrue ctxOk [rowNoAddr] false = Except.ok ([none], []) :=
  ⟨rfl, rfl⟩

/-- C6 (amended): when the validation pattern is configured, an input
one of whose rows lacks the `email_address` field makes the loading loop
raise, the enclosing handler aborts the run, and the batch is never
started — no job is scheduled and no dispatch occurs. -/
theorem missingFieldFatalWhenConfigured (p : Option String) (m : String → String → Bool)
    (ctx : Ctx) (rows : List Row) (dry : Bool)
    (hc : patternConfigured p = true)
    (hmiss : ∃ r ∈ rows, lookupRow r "email_address" = none) :
    (∃ e, loadRows p m rows = Except.error e) ∧
    (∃ e, mainRun p m ctx rows dry = Except.error e) := by
  have herr : ∀ rs : List Row, (∃ r ∈ rs, lookupRow r "email_address" = none) →
      ∃ e, loadRows p m rs = Except.error e := by
    intro rs
    induction rs with
    | nil =>
      rintro ⟨r, hr, -⟩
      exact absurd hr (List.not_mem_nil r)
    | cons row rest ih =>
      rintro ⟨r, hr, hnone⟩
      rcases List.mem_cons.mp hr with rfl | hmem
      · exact ⟨"KeyError: email_address", by simp [loadRows, hc, hnone]⟩
      · rcases hl : lookupRow row "email_address" with _ | addr
        · exact ⟨"KeyError: email_address", by simp [loadRows, hc, hl]⟩
        · rcases ih ⟨r, hmem, hnone⟩ with ⟨e, he⟩
          by_cases hm : m (p.getD "") addr = true
          · exact ⟨e, by simp [loadRows, hc, hl, hm, he]⟩
          · exact ⟨e, by simp [loadRows, hc, hl, hm, he]⟩
  rcases herr rows hmiss with ⟨e, he⟩
  exact ⟨⟨e, he⟩, ⟨e, by rw [mainRun, he]⟩⟩

/-- Witness for C6 (amended): a configured pattern plus a row without
the address field aborts load and run. -/
theorem missingFieldFatalWhenConfigured_witness :
    (∃ e, loadRows (some ".+") mTrue [rowNoAddr] = Except.error e) ∧
    (∃ e, mainRun (some ".+") mTrue ctxOk [rowNoAddr] false = Except.error e) :=
  missingFieldFatalWhenConfigured (some ".+") mTrue ctxOk [rowNoAddr] false rfl
    ⟨rowNoAddr, List.mem_singleton.mpr rfl, rfl⟩

/-- Unfolding the single-separator `intercalate` by one chunk when more
chunks follow. -/
theorem intercalate_cons_of_ne_nil (d : Char) (x : List Char) :
    ∀ t : List (List Char), t ≠ [] →
      [d].intercalate (x :: t) = x ++ d :: [d].intercalate t := by
  intro t ht
  cases t with
  | nil => exact absurd rfl ht
  | cons y t2 => simp [List.intercalate]

/-- The default value of `getLastD` is irrelevant on a nonempty list. -/
theorem getLastD_default_irrel (c a b : List Char) (l : List (List Char)) :
    (c :: l).getLastD a = (c :: l).getLastD b := by
  rw [List.getLastD_cons, List.getLastD_cons]

/-- A nonempty list of chunks contains its last chunk. -/
theorem getLastD_mem_of_ne_nil : ∀ l : List (List Char), l ≠ [] → l.getLastD [] ∈ l := by
  intro l
  induction l with
  | nil => intro h; exact absurd rfl h
  | cons x t ih =>
    intro _
    cases t with
    | nil => simp [List.getLastD_cons]
    | cons y t2 =>
      rw [List.getLastD_cons, getLastD_default_irrel y x [] t2]
      exact List.mem_cons_of_mem _ (ih (by simp))

/-- On at least two chunks, `intercalate` is the join of the leading
chunks, the separator, and the last chunk. -/
theorem intercalate_dropLast_getLastD (d : Char) :
    ∀ l : List (List Char), 2 ≤ l.length →
      [d].intercalate l = [d].intercalate l.dropLast ++ d :: l.getLastD [] := by
  intro l
  induction l with
  | nil => intro h; simp at h
  | cons x t ih =>
    intro h
    cases t with
    | nil => simp at h
    | cons y t2 =>
      cases t2 with
      | nil => simp [List.intercalate]
      | cons z t3 =>
        rw [intercalate_cons_of_ne_nil d x (y :: z :: t3) (by simp)]
        rw [ih (by simp)]
        rw [show (x :: y :: z :: t3).dropLast = x :: (y :: z :: t3).dropLast by simp]
        rw [intercalate_cons_of_ne_nil d x ((y :: z :: t3).dropLast) (by simp)]
        rw [show (x :: y :: z :: t3).getLastD [] = (y :: z :: t3).getLastD [] by
          rw [List.getLastD_cons, getLastD_default_irrel y x [] (z :: t3)]]
        simp

/-- Splitting on a delimiter that occurs yields at least two chunks. -/
theorem two_le_length_splitOn (d : Char) :
    ∀ p : List Char, d ∈ p → 2 ≤ (p.splitOn d).length := by
  intro p
  induction p with
  | nil => intro h; simp at h
  | cons c cs ih =>
    intro h
    simp only [List.splitOn] at *
    rw [List.splitOnP_cons]
    by_cases hc : c = d
    · rw [if_pos (by simp [hc])]
      have h1 : 0 < (cs.splitOnP (· == d)).length :=
        List.length_pos.mpr (List.splitOnP_ne_nil _ cs)
      simp only [List.length_cons]
      omega
    · rw [if_neg (by simp [hc])]
      rw [List.length_modifyHead]
      rcases List.mem_cons.mp h with h1 | hmem
      · exact absurd h1.symm hc
      · exact ih hmem

/-- No chunk produced by `splitOn` contains the delimiter. -/
theorem not_mem_of_mem_splitOn (d : Char) :
    ∀ p : List Char, ∀ chunk ∈ p.splitOn d, d ∉ chunk := by
  intro p
  induction p with
  | nil =>
    intro chunk hchunk
    simp [List.splitOn] at hchunk
    simp [hchunk]
  | cons c cs ih =>
    intro chunk hchunk
    simp only [List.splitOn] at *
    rw [List.splitOnP_cons] at hchunk
    by_cases hc : c = d
    · rw [if_pos (by simp [hc])] at hchunk
      rcases List.mem_cons.mp hchunk with h1 | hmem
      · simp [h1]
      · exact ih chunk hmem
    · rw [if_neg (by simp [hc])] at hchunk
      rcases hsp : cs.splitOnP (· == d) with _ | ⟨hd, tl⟩
      · exact absurd hsp (List.splitOnP_ne_nil _ cs)
      · rw [hsp, List.modifyHead_cons] at hchunk
        rcases List.mem_cons.mp hchunk with h1 | hmem
        · subst h1
          intro hd_mem
          rcases List.mem_cons.mp hd_mem with h1 | hmem2
          · exact hc h1.symm
          · exact ih hd (by rw [hsp]; exact List.mem_cons_self _ _) hmem2
        · exact ih chunk (by rw [hsp]; exact List.mem_cons_of_mem _ hmem)

/-- C9 counterexample: a path containing a backslash but no slash is
split on the backslash and reassembles to exactly the input — the
concatenation does not prepend a backslash and does equal the input,
refuting the claim's clause for paths without a slash. -/
theorem splitTemplatePath_backslash_cex :
    '/' ∉ (['a', '\\', 'b'] : List Char) ∧
    (split_template_path_and_filename ['a', '\\', 'b']).1
        ++ (split_template_path_and_filename ['a', '\\', 'b']).2
      = ['a', '\\', 'b'] := by
  constructor
  · decide
  · decide

/-- C9 (amended): for a path containing a slash, directory and filename
concatenate back to the input, the directory ends with a slash, and the
filename contains no slash (it is the part after the last slash); for a
path containing neither slash nor backslash the concatenation prepends a
backslash and differs from the input (a slashless path containing a
backslash instead splits on the backslash and reassembles exactly). -/
theorem splitTemplatePathSpec (p : List Char) :
    ('/' ∈ p →
      (split_template_path_and_filename p).1 ++ (split_template_path_and_filename p).2 = p ∧
      (∃ q, (split_template_path_and_filename p).1 = q ++ ['/']) ∧
      '/' ∉ (split_template_path_and_filename p).2) ∧
    ('/' ∉ p → '\\' ∉ p →
      (split_template_path_and_filename p).1 ++ (split_template_path_and_filename p).2
        = '\\' :: p ∧
      (split_template_path_and_filename p).1 ++ (split_template_path_and_filename p).2 ≠ p) := by
  constructor
  · intro h
    simp only [split_template_path_and_filename, if_pos h]
    refine ⟨?_, ⟨_, rfl⟩, ?_⟩
    · rw [List.append_assoc, List.singleton_append]
      rw [← intercalate_dropLast_getLastD '/' (p.splitOn '/')
            (two_le_length_splitOn '/' p h)]
      exact List.intercalate_splitOn p '/'
    · refine not_mem_of_mem_splitOn '/' p _ (getLastD_mem_of_ne_nil _ ?_)
      have := List.splitOnP_ne_nil (fun x => x == '/') p
      simpa [List.splitOn] using this
  · intro h1 h2
    have hsp : p.splitOn '\\' = [p] := by
      rw [List.splitOn]
      refine List.splitOnP_eq_single _ p ?_
      intro x hx
      simp only [beq_iff_eq]
      intro hxe
      exact h2 (hxe ▸ hx)
    have hconcat : (split_template_path_and_filename p).1
        ++ (split_template_path_and_filename p).2 = '\\' :: p := by
      simp only [split_template_path_and_filename, if_neg h1, hsp]
      simp [List.intercalate]
    exact ⟨hconcat, by rw [hconcat]; exact List.cons_ne_self '\\' p⟩

/-- Witness for C9 (amended): a slashed path reassembles to itself, a
path with neither separator gains a leading backslash. -/
theorem splitTemplatePathSpec_witness :
    (split_template_path_and_filename ['a', '/', 'b']).1
        ++ (split_template_path_and_filename ['a', '/', 'b']).2 = ['a', '/', 'b'] ∧
    (split_template_path_and_filename ['a', 'b']).1
        ++ (split_template_path_and_filename ['a', 'b']).2 = '\\' :: ['a', 'b'] :=
  ⟨((splitTemplatePathSpec ['a', '/', 'b']).1 (by decide)).1,
   ((splitTemplatePathSpec ['a', 'b']).2 (by decide) (by decide)).1⟩

end SendEmails
